import Mathlib

/-!
Verification of the platform-aware VS Code configuration generator
(`generate_vscode_files.py`).  Text is modelled as `List Char`; the
platform-profile document as an association list from OS-class key to
sub-profile; the relevant filesystem state (build/Debug directory,
CMakeLists.txt, the .vscode output directory) as an explicit record.
-/

abbrev Str := List Char

/-- Python `str.lower()` on the ASCII range (host OS names are ASCII). -/
def lowerStr (s : Str) : Str := s.map Char.toLower

/-- Python substring test `sub in s`. -/
def containsSub (s sub : Str) : Bool := decide (sub <:+: s)

def keyLinux : Str := "linux".toList

def keyWindows : Str := "windows".toList

/-- OS-class key selection of `load_platform_config` (lines 281-287):
`linux` substring is tested first, then `windows`, else default `linux`. -/
def selectKey (rawSys : Str) : Str :=
  let sysname := lowerStr rawSys
  if containsSub sysname keyLinux then keyLinux
  else if containsSub sysname keyWindows then keyWindows
  else keyLinux

/-- One sub-profile of platform.json: every field optional. -/
structure SubProfile where
  toolchain_gcc : Option Str := none
  toolchain_bin_path : Option Str := none
  gdb : Option Str := none
  openocd : Option Str := none
  build_dir : Option Str := none
  compile_commands : Option Str := none
  stm32_device : Option Str := none
  stm32_target : Option Str := none
  elf_name : Option Str := none
  svd_file : Option Str := none

/-- The parsed platform.json document: OS-class key to sub-profile. -/
abbrev PlatformDoc := List (Str × SubProfile)

def lookupA {α : Type} : List (Str × α) → Str → Option α
  | [], _ => none
  | (k, v) :: rest, key => if k = key then some v else lookupA rest key

/-- `cfg.get(key, cfg.get('linux'))` of line 288: resolved key first,
falling back to the `linux` entry; `none` when both are absent. -/
def load_platform_config (doc : PlatformDoc) (rawSys : Str) : Option SubProfile :=
  match lookupA doc (selectKey rawSys) with
  | some sp => some sp
  | none => lookupA doc keyLinux

/-- Python regex `\s` (ASCII range). -/
def isSpaceC (c : Char) : Bool :=
  c = ' ' || c = '\t' || c = '\n' || c = '\x0b' || c = '\x0c' || c = '\r'

/-- Character class `[^\s\x29]` of the captured name. -/
def isNameC (c : Char) : Bool := !isSpaceC c && c != ')'

/-- Match a literal at the head of the text, returning the rest. -/
def stripLit : Str → Str → Option Str
  | [], s => some s
  | _ :: _, [] => none
  | p :: ps, c :: cs => if p = c then stripLit ps cs else none

/-- Anchored match of the pattern `set\s*\(\s*CMAKE_PROJECT_NAME\s+([^\s\x29]+)\s*\)`
(line 300); all quantifiers are effectively possessive here, so maximal
munch is the exact semantics. -/
def matchSetPat (s : Str) : Option Str :=
  match stripLit "set".toList s with
  | none => none
  | some s1 =>
    match s1.dropWhile isSpaceC with
    | '(' :: s2 =>
      match stripLit "CMAKE_PROJECT_NAME".toList (s2.dropWhile isSpaceC) with
      | none => none
      | some s3 =>
        match s3 with
        | [] => none
        | c :: _ =>
          if isSpaceC c then
            let s4 := s3.dropWhile isSpaceC
            let name := s4.takeWhile isNameC
            if name = [] then none
            else
              match (s4.dropWhile isNameC).dropWhile isSpaceC with
              | ')' :: _ => some name
              | _ => none
          else none
    | _ => none

/-- Anchored match of the pattern `project\s*\(\s*([^\s\x29]+)\s*\)` (line 305). -/
def matchProjectPat (s : Str) : Option Str :=
  match stripLit "project".toList s with
  | none => none
  | some s1 =>
    match s1.dropWhile isSpaceC with
    | '(' :: s2 =>
      let s3 := s2.dropWhile isSpaceC
      let name := s3.takeWhile isNameC
      if name = [] then none
      else
        match (s3.dropWhile isNameC).dropWhile isSpaceC with
        | ')' :: _ => some name
        | _ => none
    | _ => none

/-- `re.search`: leftmost position at which the anchored matcher succeeds. -/
def searchFirst (f : Str → Option Str) : Str → Option Str
  | [] => f []
  | c :: rest =>
    match f (c :: rest) with
    | some r => some r
    | none => searchFirst f rest

/-- `project_name.startswith('$\x7b') and project_name.endswith('\x7d')` (line 309). -/
def isVarRef (name : Str) : Bool :=
  ['$', '{'].isPrefixOf name && name.getLast? == some '}'

/-- `detect_elf_name` (lines 290-313); `none` for the file models a missing
CMakeLists.txt. -/
def detect_elf_name (cmakeFile : Option Str) : Option Str :=
  match cmakeFile with
  | none => none
  | some content =>
    match searchFirst matchSetPat content with
    | some name => some name
    | none =>
      match searchFirst matchProjectPat content with
      | some pname => if isVarRef pname then none else some pname
      | none => none

/-- ELF-name resolution of `main` (lines 341-350); Python truthiness makes
both a missing and an empty configured name fall through to detection. -/
def resolveElfName (cfgElf : Option Str) (cmakeFile : Option Str) : Str :=
  let elf := cfgElf.getD []
  if elf = [] then
    match detect_elf_name cmakeFile with
    | some d => if d = [] then "firmware".toList else d
    | none => "firmware".toList
  else elf

/-- `posixpath.dirname`: the text before the final slash, with trailing
slashes stripped unless the head consists solely of slashes. -/
def dirname (p : Str) : Str :=
  let head := (p.reverse.dropWhile (fun c => c != '/')).reverse
  if head = [] then []
  else if head.all (fun c => c = '/') then head
  else (head.reverse.dropWhile (fun c => c = '/')).reverse

/-- Toolchain bin-path resolution of `main` (lines 352-360). -/
def resolveBinPath (cfgBin : Option Str) (cfgGcc : Option Str) : Str :=
  let bin := cfgBin.getD []
  if bin = [] then
    let gcc := cfgGcc.getD []
    if gcc = [] then [] else dirname gcc
  else bin

/-- OS-aware kill command of `main` (lines 362-369): here only the
`windows` substring is tested, with no `linux` priority. -/
def resolveKill (sysname : Str) : Str × Str :=
  if containsSub sysname keyWindows then
    ("taskkill".toList, "\"/IM\",\"openocd.exe\",\"/F\"".toList)
  else
    ("pkill".toList, "\"-f\",\"openocd\"".toList)
/-- Embedded template `c_cpp_properties.json` (verbatim from the source). -/
def tmplCCpp : Str := (String.intercalate ("\n") [
  "\x7b",
  "    \"configurations\": [",
  "        \x7b",
  "            \"name\": \"Auto\",",
  "            \"includePath\": [",
  "                \"${workspaceFolder}/**\"",
  "            ],",
  "            \"defines\": [",
  "                \"${STM32_DEVICE}\",",
  "                \"USE_HAL_DRIVER\"",
  "            ],",
  "            \"compilerPath\": \"${TOOLCHAIN_GCC}\",",
  "            \"cStandard\": \"c11\",",
  "            \"cppStandard\": \"c++17\",",
  "            \"intelliSenseMode\": \"gcc-arm\",",
  "            \"compileCommands\": \"${COMPILE_COMMANDS}\",",
  "            \"configurationProvider\": \"ms-vscode.cmake-tools\"",
  "        \x7d",
  "    ],",
  "    \"version\": 4",
  "\x7d",
  "" ]).toList

/-- Embedded template `launch.json` (verbatim from the source). -/
def tmplLaunch : Str := (String.intercalate ("\n") [
  "\x7b",
  "    \"version\": \"0.2.0\",",
  "    \"configurations\": [",
  "        \x7b",
  "            \"name\": \"Debug (OpenOCD)\",",
  "            \"type\": \"cortex-debug\",",
  "            \"request\": \"launch\",",
  "            \"executable\": \"${workspaceFolder}/${BUILD_DIR}/Debug/${ELF_NAME}.elf\",",
  "",
  "            \"servertype\": \"openocd\",",
  "            \"gdbPath\": \"${GDB_PATH}\",",
  "",
  "            \"configFiles\": [",
  "                \"interface/stlink.cfg\",",
  "                \"target/${STM32_TARGET}\"",
  "            ],",
  "",
  "            \"runToEntryPoint\": \"main\",",
  "            \"svdFile\": \"${SVD_FILE}\",",
  "            \"preLaunchTask\": \"CMake: Build (Debug)\",",
  "            \"postDebugTask\": \"Kill OpenOCD\"",
  "        \x7d,",
  "        \x7b",
  "            \"name\": \"Attach (OpenOCD)\",",
  "            \"type\": \"cortex-debug\",",
  "            \"request\": \"attach\",",
  "            \"executable\": \"${workspaceFolder}/${BUILD_DIR}/Debug/${ELF_NAME}.elf\",",
  "",
  "            \"servertype\": \"openocd\",",
  "            \"gdbPath\": \"${GDB_PATH}\",",
  "",
  "            \"configFiles\": [",
  "                \"interface/stlink.cfg\",",
  "                \"target/${STM32_TARGET}\"",
  "            ],",
  "",
  "            \"svdFile\": \"${SVD_FILE}\",",
  "            \"preLaunchTask\": \"CMake: Build (Debug)\",",
  "            \"postDebugTask\": \"Kill OpenOCD\"",
  "        \x7d",
  "    ]",
  "\x7d",
  "" ]).toList

/-- Embedded template `tasks.json` (verbatim from the source). -/
def tmplTasks : Str := (String.intercalate ("\n") [
  "\x7b",
  "    \"version\": \"2.0.0\",",
  "    \"tasks\": [",
  "        \x7b",
  "            \"label\": \"CMake: Configure (Debug)\",",
  "            \"type\": \"shell\",",
  "            \"command\": \"cmake\",",
  "            \"args\": [",
  "                \"--preset\",",
  "                \"Debug\"",
  "            ],",
  "            \"group\": \"build\",",
  "            \"problemMatcher\": [],",
  "            \"options\": \x7b",
  "                \"env\": \x7b",
  "                    \"PATH\": \"${TOOLCHAIN_BIN_PATH}:\x24\x7benv:PATH\x7d\"",
  "                \x7d",
  "            \x7d",
  "        \x7d,",
  "        \x7b",
  "            \"label\": \"CMake: Build (Debug)\",",
  "            \"type\": \"shell\",",
  "            \"command\": \"cmake\",",
  "            \"args\": [",
  "                \"--build\",",
  "                \"${workspaceFolder}/${BUILD_DIR}/Debug\",",
  "                \"--config\",",
  "                \"Debug\",",
  "                \"--target\",",
  "                \"all\",",
  "                \"-j\",",
  "                \"10\",",
  "                \"--verbose\"",
  "            ],",
  "            \"group\": \x7b",
  "                \"kind\": \"build\",",
  "                \"isDefault\": true",
  "            \x7d,",
  "            \"problemMatcher\": [",
  "                \"\x24gcc\"",
  "            ],",
  "            \"dependsOn\": [",
  "                \"CMake: Configure (Debug)\"",
  "            ],",
  "            \"options\": \x7b",
  "                \"env\": \x7b",
  "                    \"PATH\": \"${TOOLCHAIN_BIN_PATH}:\x24\x7benv:PATH\x7d\"",
  "                \x7d",
  "            \x7d",
  "        \x7d,",
  "        \x7b",
  "            \"label\": \"CMake: Clean\",",
  "            \"type\": \"shell\",",
  "            \"command\": \"cmake\",",
  "            \"args\": [",
  "                \"--build\",",
  "                \"${workspaceFolder}/${BUILD_DIR}/Debug\",",
  "                \"--target\",",
  "                \"clean\"",
  "            ],",
  "            \"group\": \"build\",",
  "            \"problemMatcher\": [],",
  "            \"options\": \x7b",
  "                \"env\": \x7b",
  "                    \"PATH\": \"${TOOLCHAIN_BIN_PATH}:\x24\x7benv:PATH\x7d\"",
  "                \x7d",
  "            \x7d",
  "        \x7d,",
  "        \x7b",
  "            \"label\": \"CMake: Configure (Release)\",",
  "            \"type\": \"shell\",",
  "            \"command\": \"cmake\",",
  "            \"args\": [",
  "                \"--preset\",",
  "                \"Release\"",
  "            ],",
  "            \"group\": \"build\",",
  "            \"problemMatcher\": [],",
  "            \"options\": \x7b",
  "                \"env\": \x7b",
  "                    \"PATH\": \"${TOOLCHAIN_BIN_PATH}:\x24\x7benv:PATH\x7d\"",
  "                \x7d",
  "            \x7d",
  "        \x7d,",
  "        \x7b",
  "            \"label\": \"CMake: Build (Release)\",",
  "            \"type\": \"shell\",",
  "            \"command\": \"cmake\",",
  "            \"args\": [",
  "                \"--build\",",
  "                \"${workspaceFolder}/${BUILD_DIR}/Release\",",
  "                \"--config\",",
  "                \"Release\",",
  "                \"--target\",",
  "                \"all\",",
  "                \"-j\",",
  "                \"10\"",
  "            ],",
  "            \"group\": \"build\",",
  "            \"problemMatcher\": [",
  "                \"\x24gcc\"",
  "            ],",
  "            \"dependsOn\": [",
  "                \"CMake: Configure (Release)\"",
  "            ],",
  "            \"options\": \x7b",
  "                \"env\": \x7b",
  "                    \"PATH\": \"${TOOLCHAIN_BIN_PATH}:\x24\x7benv:PATH\x7d\"",
  "                \x7d",
  "            \x7d",
  "        \x7d,",
  "        \x7b",
  "            \"label\": \"Flash Firmware (Debug)\",",
  "            \"type\": \"shell\",",
  "            \"command\": \"${OPENOCD_PATH}\",",
  "            \"args\": [",
  "                \"-f\",",
  "                \"interface/stlink.cfg\",",
  "                \"-f\",",
  "                \"target/${STM32_TARGET}\",",
  "                \"-c\",",
  "                \"program ${BUILD_DIR}/Debug/${ELF_NAME}.hex reset exit\"",
  "            ],",
  "            \"group\": \"build\",",
  "            \"problemMatcher\": [],",
  "            \"dependsOn\": [",
  "                \"CMake: Build (Debug)\"",
  "            ],",
  "            \"options\": \x7b",
  "                \"cwd\": \"${workspaceFolder}\"",
  "            \x7d",
  "        \x7d,",
  "        \x7b",
  "            \"label\": \"Flash Firmware (Release)\",",
  "            \"type\": \"shell\",",
  "            \"command\": \"${OPENOCD_PATH}\",",
  "            \"args\": [",
  "                \"-f\",",
  "                \"interface/stlink.cfg\",",
  "                \"-f\",",
  "                \"target/${STM32_TARGET}\",",
  "                \"-c\",",
  "                \"program ${BUILD_DIR}/Release/${ELF_NAME}.hex reset exit\"",
  "            ],",
  "            \"group\": \"build\",",
  "            \"problemMatcher\": [],",
  "            \"dependsOn\": [",
  "                \"CMake: Build (Release)\"",
  "            ],",
  "            \"options\": \x7b",
  "                \"cwd\": \"${workspaceFolder}\"",
  "            \x7d",
  "        \x7d",
  "        ,",
  "        \x7b",
  "            \"label\": \"Kill OpenOCD\",",
  "            \"type\": \"shell\",",
  "            \"command\": \"${KILL_OPENOCD_CMD}\",",
  "            \"args\": [${KILL_OPENOCD_ARGS}],",
  "            \"problemMatcher\": []",
  "        \x7d",
  "    ]",
  "\x7d",
  "" ]).toList

/-- Embedded template `extensions.json` (verbatim from the source). -/
def tmplExtensions : Str := (String.intercalate ("\n") [
  "\x7b",
  "    \"recommendations\": [",
  "        \"ms-vscode.cpptools\",",
  "        \"ms-vscode.cmake-tools\",",
  "        \"marus25.cortex-debug\",",
  "        \"ms-vscode.hexeditor\"",
  "    ],",
  "    \"unwantedRecommendations\": []",
  "\x7d",
  "" ]).toList

def nameCCpp : Str := "c_cpp_properties.json".toList

def nameLaunch : Str := "launch.json".toList

def nameTasks : Str := "tasks.json".toList

def nameExtensions : Str := "extensions.json".toList

/-- `TEMPLATES` (line 30). -/
def TEMPLATES : List Str := [nameCCpp, nameLaunch, nameTasks, nameExtensions]

/-- `EMBED_TEMPLATES` (lines 33-276). -/
def EMBED_TEMPLATES : List (Str × Str) :=
  [(nameCCpp, tmplCCpp), (nameLaunch, tmplLaunch),
   (nameTasks, tmplTasks), (nameExtensions, tmplExtensions)]

/-- The `mapping` dict of `main` (lines 371-384), in insertion order. -/
def buildMapping (cfg : SubProfile) (elf binPath killCmd killArgs : Str) :
    List (Str × Str) :=
  [("TOOLCHAIN_GCC".toList, cfg.toolchain_gcc.getD []),
   ("TOOLCHAIN_BIN_PATH".toList, binPath),
   ("GDB_PATH".toList, cfg.gdb.getD []),
   ("OPENOCD_PATH".toList, cfg.openocd.getD []),
   ("BUILD_DIR".toList, cfg.build_dir.getD ("build/Debug".toList)),
   ("COMPILE_COMMANDS".toList,
     cfg.compile_commands.getD ("${workspaceFolder}/build/Debug/compile_commands.json".toList)),
   ("STM32_DEVICE".toList, cfg.stm32_device.getD ("STM32L476xx".toList)),
   ("STM32_TARGET".toList, cfg.stm32_target.getD ("stm32l4x.cfg".toList)),
   ("ELF_NAME".toList, elf),
   ("SVD_FILE".toList, cfg.svd_file.getD [])]
  ++ [("KILL_OPENOCD_CMD".toList, killCmd),
      ("KILL_OPENOCD_ARGS".toList, killArgs)]

/-- Full value resolution of `main` for one sub-profile, host string and
CMakeLists.txt content (lines 341-384). -/
def resolveMapping (cfg : SubProfile) (rawSys : Str) (cmakeFile : Option Str) :
    List (Str × Str) :=
  buildMapping cfg
    (resolveElfName cfg.elf_name cmakeFile)
    (resolveBinPath cfg.toolchain_bin_path cfg.toolchain_gcc)
    (resolveKill (lowerStr rawSys)).1
    (resolveKill (lowerStr rawSys)).2

/-- Recursion core of Python `text.replace(pat, rep)`: structural fuel,
spent one unit per step; `fuel` at least the text length is always
enough, since a match consumes at least one character of a nonempty
pattern. -/
def replaceFuel (pat rep : Str) : Nat → Str → Str
  | _, [] => []
  | 0, s => s
  | fuel + 1, c :: rest =>
    if pat ≠ [] ∧ pat.isPrefixOf (c :: rest) = true then
      rep ++ replaceFuel pat rep fuel ((c :: rest).drop pat.length)
    else
      c :: replaceFuel pat rep fuel rest

/-- Python `text.replace(pat, rep)` for a nonempty pattern: left-to-right,
non-overlapping.  (The generator only ever substitutes the nonempty
patterns `$\x7bNAME\x7d`.) -/
def replaceList (pat rep : Str) (s : Str) : Str :=
  replaceFuel pat rep s.length s

/-- The fuel argument is irrelevant once it covers the text length. -/
theorem replaceFuel_fuel_irrel (pat rep : Str) :
    ∀ f1 : Nat, ∀ s : Str, ∀ f2 : Nat, s.length ≤ f1 → s.length ≤ f2 →
      replaceFuel pat rep f1 s = replaceFuel pat rep f2 s := by
  intro f1
  induction f1 with
  | zero =>
    intro s f2 h1 _
    have hs : s = [] := List.eq_nil_of_length_eq_zero (Nat.le_zero.mp h1)
    subst hs
    cases f2 <;> rfl
  | succ f ih =>
    intro s f2 h1 h2
    cases s with
    | nil => cases f2 <;> rfl
    | cons c rest =>
      cases f2 with
      | zero => simp at h2
      | succ g =>
      simp only [replaceFuel]
      by_cases hc : pat ≠ [] ∧ pat.isPrefixOf (c :: rest) = true
      · rw [if_pos hc, if_pos hc]
        have hp : 0 < pat.length := List.length_pos.mpr hc.1
        have hd : ((c :: rest).drop pat.length).length ≤ f := by
          simp only [List.length_drop, List.length_cons]
          simp only [List.length_cons] at h1
          omega
        have hd2 : ((c :: rest).drop pat.length).length ≤ g := by
          simp only [List.length_drop, List.length_cons]
          simp only [List.length_cons] at h2
          omega
        rw [ih _ g hd hd2]
      · rw [if_neg hc, if_neg hc]
        have hr : rest.length ≤ f := by
          simp only [List.length_cons] at h1
          omega
        have hr2 : rest.length ≤ g := by
          simp only [List.length_cons] at h2
          omega
        rw [ih _ g hr hr2]

/-- The natural unfolding of `replaceList` on a cons cell. -/
theorem replaceList_cons (pat rep : Str) (c : Char) (rest : Str) :
    replaceList pat rep (c :: rest) =
      if pat ≠ [] ∧ pat.isPrefixOf (c :: rest) = true then
        rep ++ replaceList pat rep ((c :: rest).drop pat.length)
      else
        c :: replaceList pat rep rest := by
  show replaceFuel pat rep (rest.length + 1) (c :: rest) = _
  simp only [replaceFuel]
  by_cases hc : pat ≠ [] ∧ pat.isPrefixOf (c :: rest) = true
  · rw [if_pos hc, if_pos hc]
    have hp : 0 < pat.length := List.length_pos.mpr hc.1
    rw [replaceFuel_fuel_irrel pat rep rest.length _
      ((c :: rest).drop pat.length).length
      (by simp only [List.length_drop, List.length_cons]; omega) (Nat.le_refl _)]
    rfl
  · rw [if_neg hc, if_neg hc]
    rfl

/-- The wrapped placeholder form `'$\x7b' + k + '\x7d'`. -/
def wrapName (k : Str) : Str := '$' :: '{' :: (k ++ ['}'])

/-- `replace_placeholders` (lines 315-318): key-by-key replacement in the
mapping's insertion order. -/
def replace_placeholders (text : Str) (mapping : List (Str × Str)) : Str :=
  mapping.foldl (fun t kv => replaceList (wrapName kv.1) kv.2 t) text

/-- One entry of a directory: a plain file with its content, or a
subdirectory with its own entries. -/
inductive FTree where
  | file : Str → FTree
  | dir : List (Str × FTree) → FTree

instance : Nonempty FTree := ⟨FTree.dir []⟩

def entryIsFile : FTree → Bool
  | .file _ => true
  | .dir _ => false

/-- The `os.listdir` / `os.path.isfile` / `os.remove` loop of `main`
(lines 334-337): every plain-file entry is removed, directory entries
are kept. -/
def clearFiles : List (Str × FTree) → List (Str × FTree)
  | [] => []
  | (n, e) :: rest =>
    if entryIsFile e then clearFiles rest else (n, e) :: clearFiles rest

def setEntry : List (Str × FTree) → Str → FTree → List (Str × FTree)
  | [], n, e => [(n, e)]
  | (m, x) :: rest, n, e =>
    if m = n then (n, e) :: rest else (m, x) :: setEntry rest n e

inductive RunErr where
  | parseError
  | nullProfile
  | isADirectory
deriving DecidableEq

/-- `open(path, 'w')` + write (lines 393-394): overwrites a plain file,
raises IsADirectoryError when the path names an existing directory. -/
def writeFile (d : List (Str × FTree)) (n content : Str) :
    Except RunErr (List (Str × FTree)) :=
  match lookupA d n with
  | some (.dir _) => .error .isADirectory
  | _ => .ok (setEntry d n (.file content))

/-- The write loop of `main` (lines 386-395); an exception aborts the loop
leaving the writes made so far. -/
def writeTemplates (mapping : List (Str × Str)) :
    List Str → List (Str × FTree) → (List (Str × FTree)) × Option RunErr
  | [], d => (d, none)
  | n :: rest, d =>
    match lookupA EMBED_TEMPLATES n with
    | none => writeTemplates mapping rest d
    | some tmpl =>
      match writeFile d n (replace_placeholders tmpl mapping) with
      | .ok d2 => writeTemplates mapping rest d2
      | .error e => (d, some e)

/-- Filesystem state touched by the generator: existence of the Debug
build directory, the CMakeLists.txt content (read-only), and the .vscode
output directory with its entries (`none` = directory absent). -/
structure FS where
  buildDebug : Bool
  cmakeFile : Option Str
  vscode : Option (List (Str × FTree))

/-- The file-level reset of the .vscode directory (lines 330-339): clear
plain files if the directory exists, else start from the empty directory
that `os.makedirs` creates. -/
def clearedDir (fs : FS) : List (Str × FTree) :=
  match fs.vscode with
  | some v => clearFiles v
  | none => []

/-- The tail of `main` once a sub-profile has been selected: Debug
build-directory removal, output reset, value resolution and writing. -/
def runWith (cfg : SubProfile) (rawSys : Str) (fs : FS) :
    FS × Except RunErr Unit :=
  let fs1 : FS := { fs with buildDebug := false }
  let d0 := clearedDir fs1
  let mapping := resolveMapping cfg rawSys fs1.cmakeFile
  match writeTemplates mapping TEMPLATES d0 with
  | (dfin, none) => ({ fs1 with vscode := some dfin }, .ok ())
  | (dfin, some e) => ({ fs1 with vscode := some dfin }, .error e)

/-- One whole run of `main` (lines 320-397): profile loading, Debug
build-directory removal, .vscode file-level reset, value resolution,
template substitution and writing.  A `none` document models a
platform.json that is missing or fails `json.load`; that exception, and
the crash on a null selected sub-profile (`cfg.get` on None, line 324),
happen before any filesystem mutation.  The error component models a
nonzero process exit status. -/
def run (doc : Option PlatformDoc) (rawSys : Str) (fs : FS) :
    FS × Except RunErr Unit :=
  match doc with
  | none => (fs, .error .parseError)
  | some d =>
    match load_platform_config d rawSys with
    | none => (fs, .error .nullProfile)
    | some cfg => runWith cfg rawSys fs

/-- The plain-file entries (name, content) of a directory listing. -/
def filesOf (d : List (Str × FTree)) : List (Str × Str) :=
  d.filterMap (fun p => match p.2 with
    | .file c => some (p.1, c)
    | .dir _ => none)

/-- The subdirectory entries of a directory listing, with their contents. -/
def subdirsOf (d : List (Str × FTree)) : List (Str × FTree) :=
  d.filter (fun p => !entryIsFile p.2)

/-! ## Shared helper facts and concrete states -/

/-- An empty filesystem state shared by several concrete checks. -/
def fsEmpty : FS := { buildDebug := false, cmakeFile := none, vscode := none }

/-- The empty sub-profile: every field absent. -/
def subEmpty : SubProfile := {}

/-! ## C1 — OS-class selection priority -/

/-- C1 counterexample: a host string whose lowercase form contains
`windows` but for which the loader nevertheless selects the `linux` key,
because the `linux` substring test has priority (lines 282-285). -/
theorem c1_windows_not_prioritized :
    containsSub (lowerStr ("LinuxWindows".toList)) keyWindows = true ∧
    selectKey ("LinuxWindows".toList) ≠ keyWindows := by decide

/-- C1 (amended): for every host OS string the loader selects `windows`
when the lowercased string contains `windows` and does not contain
`linux`; it selects `linux` whenever the string contains `linux` (this
test has priority) and whenever it contains neither substring. -/
theorem c1_selectKey_priority (rawSys : Str) :
    (containsSub (lowerStr rawSys) keyWindows = true ∧
       containsSub (lowerStr rawSys) keyLinux = false →
       selectKey rawSys = keyWindows) ∧
    (containsSub (lowerStr rawSys) keyLinux = true →
       selectKey rawSys = keyLinux) ∧
    (containsSub (lowerStr rawSys) keyWindows = false →
       selectKey rawSys = keyLinux) := by
  unfold selectKey
  refine ⟨fun h => ?_, fun h => ?_, fun h => ?_⟩
  · simp [h.1, h.2]
  · simp [h]
  · by_cases hl : containsSub (lowerStr rawSys) keyLinux <;> simp [h, hl]

/-- C1 witness: a plain Windows host string selects the `windows` key. -/
theorem c1_selectKey_priority_witness :
    selectKey ("Windows".toList) = keyWindows :=
  (c1_selectKey_priority ("Windows".toList)).1 (by decide)

/-! ## C2 — totality of loading and value resolution -/

/-- C2 counterexample: the empty document is well-formed (parseable) JSON,
yet loading yields no sub-profile (`cfg` is None) and the run aborts with
its filesystem state untouched. -/
theorem c2_empty_doc_fails :
    load_platform_config [] ("Linux".toList) = none ∧
    run (some []) ("Linux".toList) fsEmpty = (fsEmpty, .error .nullProfile) :=
  ⟨rfl, rfl⟩

/-- C2 (amended): whenever the document contains the resolved OS key or a
`linux` entry, loading succeeds; and value resolution is total: for the
empty sub-profile the resolved map carries exactly the twelve placeholder
keys, with the documented literal defaults for the target device and
target config. -/
theorem c2_resolution_total (doc : PlatformDoc) (rawSys : Str)
    (cmakeFile : Option Str)
    (h : (lookupA doc (selectKey rawSys)).isSome = true ∨
         (lookupA doc keyLinux).isSome = true) :
    (load_platform_config doc rawSys).isSome = true ∧
    (resolveMapping subEmpty rawSys cmakeFile).map Prod.fst =
      ["TOOLCHAIN_GCC".toList, "TOOLCHAIN_BIN_PATH".toList, "GDB_PATH".toList,
       "OPENOCD_PATH".toList, "BUILD_DIR".toList, "COMPILE_COMMANDS".toList,
       "STM32_DEVICE".toList, "STM32_TARGET".toList, "ELF_NAME".toList,
       "SVD_FILE".toList, "KILL_OPENOCD_CMD".toList, "KILL_OPENOCD_ARGS".toList] ∧
    lookupA (resolveMapping subEmpty rawSys cmakeFile) ("STM32_DEVICE".toList) =
      some ("STM32L476xx".toList) ∧
    lookupA (resolveMapping subEmpty rawSys cmakeFile) ("STM32_TARGET".toList) =
      some ("stm32l4x.cfg".toList) := by
  refine ⟨?_, rfl, rfl, rfl⟩
  unfold load_platform_config
  cases hk : lookupA doc (selectKey rawSys) with
  | some sp => rfl
  | none =>
    rcases h with h | h
    · rw [hk] at h
      simp at h
    · exact h

/-- C2 witness: a document with only a `linux` entry, on a Linux host. -/
theorem c2_resolution_total_witness :
    (load_platform_config [(keyLinux, subEmpty)] ("Linux".toList)).isSome = true :=
  (c2_resolution_total [(keyLinux, subEmpty)] ("Linux".toList) none
    (Or.inr (by decide))).1

/-! ## C5 — derived toolchain bin directory -/

/-- C5: with no bin-path override, a configured (nonempty) compiler path
resolves to its containing directory; no compiler path resolves to the
empty string; and the documented example path derives correctly. -/
theorem c5_derived_bin_path (gcc : Str) (hg : gcc ≠ []) :
    resolveBinPath none (some gcc) = dirname gcc ∧
    resolveBinPath none none = [] ∧
    dirname ("/opt/tools/gcc-arm/bin/arm-none-eabi-gcc".toList) =
      "/opt/tools/gcc-arm/bin".toList := by
  refine ⟨?_, rfl, by decide⟩
  simp [resolveBinPath, hg]

/-- C5 witness: the spec's example compiler path. -/
theorem c5_derived_bin_path_witness :
    resolveBinPath none (some ("/opt/tools/gcc-arm/bin/arm-none-eabi-gcc".toList)) =
      dirname ("/opt/tools/gcc-arm/bin/arm-none-eabi-gcc".toList) :=
  (c5_derived_bin_path ("/opt/tools/gcc-arm/bin/arm-none-eabi-gcc".toList)
    (by decide)).1

/-! ## C9 — OS-conditional kill invocation -/

/-- C9: the kill invocation is chosen purely by whether the lowercased
host string contains `windows` (taskkill /IM openocd.exe /F) or not
(pkill -f openocd), and command and argument list are two distinct
entries of the resolved value map. -/
theorem c9_kill_invocation (rawSys : Str) (cfg : SubProfile)
    (cmakeFile : Option Str) :
    (containsSub (lowerStr rawSys) keyWindows = true →
      resolveKill (lowerStr rawSys) =
        ("taskkill".toList, "\"/IM\",\"openocd.exe\",\"/F\"".toList)) ∧
    (containsSub (lowerStr rawSys) keyWindows = false →
      resolveKill (lowerStr rawSys) =
        ("pkill".toList, "\"-f\",\"openocd\"".toList)) ∧
    lookupA (resolveMapping cfg rawSys cmakeFile) ("KILL_OPENOCD_CMD".toList) =
      some (resolveKill (lowerStr rawSys)).1 ∧
    lookupA (resolveMapping cfg rawSys cmakeFile) ("KILL_OPENOCD_ARGS".toList) =
      some (resolveKill (lowerStr rawSys)).2 := by
  refine ⟨fun h => ?_, fun h => ?_, rfl, rfl⟩
  · simp [resolveKill, h]
  · simp [resolveKill, h]

/-- C9 witness: a Windows host string yields the taskkill invocation. -/
theorem c9_kill_invocation_witness :
    resolveKill (lowerStr ("Windows".toList)) =
      ("taskkill".toList, "\"/IM\",\"openocd.exe\",\"/F\"".toList) :=
  (c9_kill_invocation ("Windows".toList) subEmpty none).1 (by decide)

/-! ## C10 — substituted values are themselves rewritten -/

/-- A sub-profile whose compiler path contains the wrapped form of the
later key BUILD_DIR. -/
def subChained : SubProfile :=
  { toolchain_gcc := some ("/o/${BUILD_DIR}/gcc".toList),
    build_dir := some ("out".toList) }

/-- C10: replacement is applied key by key in the mapping's insertion
order over the whole intermediate text, so the BUILD_DIR placeholder
inside the earlier TOOLCHAIN_GCC value is itself rewritten: the rendered
text contains the build directory value and no literal wrapped BUILD_DIR
remains. -/
theorem c10_inserted_values_rewritten :
    replace_placeholders ("gcc=${TOOLCHAIN_GCC};dir=${BUILD_DIR}".toList)
        (resolveMapping subChained ("Linux".toList) none) =
      "gcc=/o/out/gcc;dir=out".toList ∧
    containsSub
      (replace_placeholders ("gcc=${TOOLCHAIN_GCC};dir=${BUILD_DIR}".toList)
        (resolveMapping subChained ("Linux".toList) none))
      (wrapName ("BUILD_DIR".toList)) = false := by decide

/-! ## C4 — ELF-name auto-detection precedence -/

/-- The captured group of the assignment pattern is nonempty. -/
theorem matchSetPat_ne_nil {s n : Str} (h : matchSetPat s = some n) :
    n ≠ [] := by
  unfold matchSetPat at h
  repeat' split at h
  all_goals try simp_all
  all_goals
    obtain ⟨h1, h2⟩ := h
  all_goals split at h2 <;> try simp_all
  all_goals
    cases h2
    simpa using h1

/-- The captured group of the invocation pattern is nonempty. -/
theorem matchProjectPat_ne_nil {s n : Str} (h : matchProjectPat s = some n) :
    n ≠ [] := by
  unfold matchProjectPat at h
  repeat' split at h
  all_goals try simp_all
  all_goals
    obtain ⟨h1, h2⟩ := h
  all_goals split at h2 <;> try simp_all
  all_goals
    cases h2
    simpa using h1

/-- A successful search inherits any property of the matcher's results. -/
theorem searchFirst_some {f : Str → Option Str} {P : Str → Prop}
    (hf : ∀ s n, f s = some n → P n) :
    ∀ s n, searchFirst f s = some n → P n := by
  intro s
  induction s with
  | nil => intro n h; exact hf [] n h
  | cons c rest ih =>
    intro n h
    unfold searchFirst at h
    cases hc : f (c :: rest) with
    | some r =>
      rw [hc] at h
      have h2 : some r = some n := h
      exact hf (c :: rest) n (hc.trans h2)
    | none =>
      rw [hc] at h
      exact ih n h

/-- C4: when no executable name is configured, auto-detection from the
build-description text obeys the code's precedence: the assignment
pattern wins over any invocation pattern; otherwise a bare-literal
invocation argument is used; a placeholder-style invocation argument, no
match at all, or a missing CMakeLists.txt all yield the fallback
`firmware`. -/
theorem c4_elf_precedence (content : Str) :
    (∀ X, searchFirst matchSetPat content = some X →
      resolveElfName none (some content) = X) ∧
    (∀ X, searchFirst matchSetPat content = none →
      searchFirst matchProjectPat content = some X → isVarRef X = false →
      resolveElfName none (some content) = X) ∧
    (searchFirst matchSetPat content = none →
      (searchFirst matchProjectPat content = none ∨
        ∃ X, searchFirst matchProjectPat content = some X ∧ isVarRef X = true) →
      resolveElfName none (some content) = "firmware".toList) ∧
    resolveElfName none none = "firmware".toList := by
  refine ⟨?_, ?_, ?_, rfl⟩
  · intro X hX
    have hne : X ≠ [] := searchFirst_some (fun s n h => matchSetPat_ne_nil h) content X hX
    simp [resolveElfName, detect_elf_name, hX, hne]
  · intro X hset hproj hvar
    have hne : X ≠ [] := searchFirst_some (fun s n h => matchProjectPat_ne_nil h) content X hproj
    simp [resolveElfName, detect_elf_name, hset, hproj, hvar, hne]
  · intro hset hcase
    rcases hcase with hnone | ⟨X, hX, hvar⟩
    · simp [resolveElfName, detect_elf_name, hset, hnone]
    · simp [resolveElfName, detect_elf_name, hset, hX, hvar]

/-- C4 witness: a text holding both patterns resolves to the assignment's
name; a placeholder-style invocation argument falls back to firmware. -/
theorem c4_elf_precedence_witness :
    resolveElfName none
        (some ("set(CMAKE_PROJECT_NAME Alpha)\nproject(Beta)\n".toList)) =
      "Alpha".toList ∧
    resolveElfName none (some ("project(${PROJECT_NAME})\n".toList)) =
      "firmware".toList :=
  ⟨(c4_elf_precedence ("set(CMAKE_PROJECT_NAME Alpha)\nproject(Beta)\n".toList)).1
      ("Alpha".toList) (by decide),
   (c4_elf_precedence ("project(${PROJECT_NAME})\n".toList)).2.2.1 (by decide)
      (Or.inr ⟨"${PROJECT_NAME}".toList, by decide, by decide⟩)⟩

/-! ## C3 — unknown placeholders pass through unchanged -/

/-- A placeholder-shaped name: none of the wrapper characters occur in it
(this holds for every key the resolver ever emits and for editor-native
variable names such as workspaceFolder or env:PATH). -/
def placeholderClean (n : Str) : Bool :=
  n.all (fun c => c ≠ '$' && c ≠ '{' && c ≠ '}')

/-- The dollar sign does not occur after the head of a clean wrapped name. -/
theorem dollar_not_mem_wrapTail {n : Str} (hn : placeholderClean n = true) :
    '$' ∉ '{' :: (n ++ ['}']) := by
  intro hmem
  simp only [placeholderClean, List.all_eq_true] at hn
  rcases List.mem_cons.mp hmem with h | h
  · exact absurd h (by decide)
  · rcases List.mem_append.mp h with h | h
    · have hd := hn _ h
      simp at hd
    · simp at h

/-- Replacement walks untouched over a stretch of text that nowhere
holds the pattern's first character. -/
theorem replaceList_append_no_head (pat rep : Str) (c0 : Char) (pat0 : Str)
    (hp : pat = c0 :: pat0) :
    ∀ q t : Str, c0 ∉ q →
      replaceList pat rep (q ++ t) = q ++ replaceList pat rep t := by
  intro q
  induction q with
  | nil => intro t _; rfl
  | cons a q ih =>
    intro t hq
    have ha : c0 ≠ a := fun h => hq (h ▸ List.mem_cons_self a q)
    rw [List.cons_append, replaceList_cons, if_neg, ih t (fun h => hq (List.mem_cons_of_mem a h)),
      List.cons_append]
    rintro ⟨_, hpre⟩
    rw [hp] at hpre
    have := (List.isPrefixOf_iff_prefix.mp hpre)
    rcases this with ⟨r, hr⟩
    rw [List.cons_append] at hr
    exact ha (List.head_eq_of_cons_eq hr)

/-- Distinct clean names with the closing brace appended are never
prefixes of one another's continuation. -/
theorem clean_bracket_not_prefix :
    ∀ k n : Str, placeholderClean k = true → placeholderClean n = true →
      k ≠ n → ∀ tail : Str, ¬ (k ++ ['}']) <+: (n ++ '}' :: tail) := by
  intro k
  induction k with
  | nil =>
    intro n hk hn hne tail hpre
    cases n with
    | nil => exact hne rfl
    | cons b n2 =>
      rcases hpre with ⟨r, hr⟩
      simp only [List.nil_append, List.cons_append] at hr
      have hb : ('}' : Char) = b := List.head_eq_of_cons_eq hr
      have hbn := (List.all_eq_true.mp hn) b (List.mem_cons_self b n2)
      rw [← hb] at hbn
      simp at hbn
  | cons a k2 ih =>
    intro n hk hn hne tail hpre
    cases n with
    | nil =>
      rcases hpre with ⟨r, hr⟩
      simp only [List.cons_append, List.nil_append] at hr
      have hb : a = '}' := List.head_eq_of_cons_eq hr
      have hak := (List.all_eq_true.mp hk) a (List.mem_cons_self a k2)
      rw [hb] at hak
      simp at hak
    | cons b n2 =>
      rcases hpre with ⟨r, hr⟩
      simp only [List.cons_append] at hr
      have hb : a = b := List.head_eq_of_cons_eq hr
      have htl := List.tail_eq_of_cons_eq hr
      subst hb
      have hne2 : k2 ≠ n2 := fun h => hne (by rw [h])
      have hk2 : placeholderClean k2 = true := by
        simp only [placeholderClean, List.all_cons, Bool.and_eq_true] at hk
        exact hk.2
      have hn2 : placeholderClean n2 = true := by
        simp only [placeholderClean, List.all_cons, Bool.and_eq_true] at hn
        exact hn.2
      exact ih n2 hk2 hn2 hne2 tail ⟨r, htl⟩

/-- Extending text on the left preserves infix occurrences. -/
theorem infix_append_left {l t : Str} (pre : Str) (h : l <:+: t) :
    l <:+: pre ++ t := by
  rcases h with ⟨x, y, hxy⟩
  refine ⟨pre ++ x, y, ?_⟩
  rw [← hxy]
  simp [List.append_assoc]

/-- Core preservation lemma: replacing the wrapped form of a clean key k
never destroys an occurrence of the wrapped form of a different clean
name n. -/
theorem replaceList_preserves_other {k n : Str} (rep : Str)
    (hk : placeholderClean k = true) (hn : placeholderClean n = true)
    (hne : k ≠ n) :
    ∀ m : Nat, ∀ s : Str, s.length ≤ m → wrapName n <:+: s →
      wrapName n <:+: replaceList (wrapName k) rep s := by
  have hwn : ∀ b : Str, wrapName n ++ b = '$' :: '{' :: ((n ++ ['}']) ++ b) := by
    intro b
    simp [wrapName]
  intro m
  induction m with
  | zero =>
    intro s hl hin
    have hs : s = [] := List.eq_nil_of_length_eq_zero (Nat.le_zero.mp hl)
    subst hs
    rcases hin with ⟨a, b, hab⟩
    rcases List.append_eq_nil.mp hab with ⟨hab1, -⟩
    rcases List.append_eq_nil.mp hab1 with ⟨-, hab2⟩
    exact absurd hab2 (by simp [wrapName])
  | succ m ih =>
    intro s hl hin
    cases s with
    | nil =>
      rcases hin with ⟨a, b, hab⟩
      rcases List.append_eq_nil.mp hab with ⟨hab1, -⟩
      rcases List.append_eq_nil.mp hab1 with ⟨-, hab2⟩
      exact absurd hab2 (by simp [wrapName])
    | cons c rest =>
      rw [replaceList_cons]
      rcases hin with ⟨a, b, hab⟩
      by_cases hc : (wrapName k ≠ [] ∧ (wrapName k).isPrefixOf (c :: rest) = true)
      · rw [if_pos hc]
        rcases List.isPrefixOf_iff_prefix.mp hc.2 with ⟨t, ht⟩
        have hdrop : (c :: rest).drop (wrapName k).length = t := by
          rw [← ht, List.drop_left]
        have hlenwk : 0 < (wrapName k).length := by simp [wrapName]
        have hlent : (wrapName k).length + t.length = (c :: rest).length := by
          rw [← ht, List.length_append]
        by_cases hlen : (wrapName k).length ≤ a.length
        · have h1 : List.drop (wrapName k).length (a ++ (wrapName n ++ b)) =
              List.drop (wrapName k).length (wrapName k ++ t) := by
            rw [← List.append_assoc, hab, ht]
          rw [List.drop_left] at h1
          rw [List.drop_append_eq_append_drop, Nat.sub_eq_zero_of_le hlen,
            List.drop_zero] at h1
          have hint : wrapName n <:+: t := by
            refine ⟨List.drop (wrapName k).length a, b, ?_⟩
            rw [List.append_assoc]
            exact h1
          have htm : t.length ≤ m := by
            simp only [List.length_cons] at hl hlent
            omega
          rw [hdrop]
          exact infix_append_left rep (ih t htm hint)
        · push_neg at hlen
          exfalso
          cases a with
          | nil =>
            have heq : wrapName n ++ b = wrapName k ++ t := by
              rw [ht]
              simpa using hab
            have hwk : wrapName k ++ t = '$' :: '{' :: ((k ++ ['}']) ++ t) := by
              simp [wrapName]
            rw [hwn b, hwk] at heq
            injection heq with h1 h2
            injection h2 with h3 h4
            refine clean_bracket_not_prefix k n hk hn hne b ⟨t, ?_⟩
            rw [← h4]
            simp
          | cons a0 a2 =>
            have hapre : a0 :: a2 <+: wrapName k := by
              refine List.prefix_of_prefix_length_le ?_ ⟨t, ht⟩ (Nat.le_of_lt hlen)
              exact ⟨wrapName n ++ b, by rw [← List.append_assoc, hab]⟩
            rcases hapre with ⟨r, hr⟩
            have hrlen : r ≠ [] := by
              intro hnil
              rw [hnil, List.append_nil] at hr
              rw [hr] at hlen
              omega
            have hcancel : wrapName n ++ b = r ++ t := by
              have hx : (a0 :: a2) ++ (wrapName n ++ b) =
                  (a0 :: a2) ++ (r ++ t) := by
                rw [← List.append_assoc, hab, ← ht, ← hr, List.append_assoc]
              exact List.append_cancel_left hx
            cases r with
            | nil => exact hrlen rfl
            | cons r0 r2 =>
              have hr0 : ('$' : Char) = r0 := by
                rw [hwn b] at hcancel
                exact List.head_eq_of_cons_eq hcancel
              have htail : a2 ++ r0 :: r2 = '{' :: (k ++ ['}']) := by
                have := List.tail_eq_of_cons_eq
                  (by simpa [wrapName, List.cons_append] using hr)
                simpa using this
              have hmem : r0 ∈ '{' :: (k ++ ['}']) := by
                rw [← htail]
                exact List.mem_append_right a2 (List.mem_cons_self r0 r2)
              rw [← hr0] at hmem
              exact dollar_not_mem_wrapTail hk hmem
      · rw [if_neg hc]
        cases a with
        | nil =>
          have heq : '$' :: '{' :: ((n ++ ['}']) ++ b) = c :: rest := by
            rw [← hwn b]
            simpa using hab
          injection heq with hc0 heq2
          have hq : ('$' : Char) ∉ ('{' :: (n ++ ['}'])) :=
            dollar_not_mem_wrapTail hn
          have hskip := replaceList_append_no_head (wrapName k) rep '$'
            ('{' :: (k ++ ['}'])) (by simp [wrapName]) ('{' :: (n ++ ['}'])) b hq
          have hrest2 : rest = ('{' :: (n ++ ['}'])) ++ b := by
            rw [List.cons_append]
            exact heq2.symm
          rw [hrest2, hskip, ← hc0]
          refine ⟨[], replaceList (wrapName k) rep b, ?_⟩
          simp [wrapName, List.cons_append, List.append_assoc]
        | cons a0 a2 =>
          have hook : a2 ++ wrapName n ++ b = rest := by
            have := List.tail_eq_of_cons_eq (by simpa [List.cons_append] using hab)
            simpa [List.append_assoc] using this
          have hrm : rest.length ≤ m := by
            simp only [List.length_cons] at hl
            omega
          exact List.infix_cons (ih rest hrm ⟨a2, b, by simpa [List.append_assoc] using hook⟩)

/-- C3: substitution replaces only wrapped forms of the map's keys.  Every
placeholder-shaped token whose (clean) name is not a key — such as the
editor-native workspaceFolder or env:PATH variables — survives the whole
key-by-key substitution verbatim, and the engine is total (no error). -/
theorem c3_unknown_placeholders_untouched
    (mapping : List (Str × Str)) (name text : Str)
    (hkeys : ∀ kv ∈ mapping, placeholderClean kv.1 = true)
    (hname : placeholderClean name = true)
    (hnk : ∀ kv ∈ mapping, kv.1 ≠ name)
    (hin : wrapName name <:+: text) :
    wrapName name <:+: replace_placeholders text mapping := by
  have main : ∀ ms : List (Str × Str),
      (∀ kv ∈ ms, placeholderClean kv.1 = true) →
      (∀ kv ∈ ms, kv.1 ≠ name) → ∀ tx : Str, wrapName name <:+: tx →
      wrapName name <:+: replace_placeholders tx ms := by
    intro ms
    induction ms with
    | nil =>
      intro _ _ tx hin2
      exact hin2
    | cons kv rest ih =>
      intro hks hnks tx hin2
      exact ih (fun p hp => hks p (List.mem_cons_of_mem kv hp))
        (fun p hp => hnks p (List.mem_cons_of_mem kv hp))
        (replaceList (wrapName kv.1) kv.2 tx)
        (replaceList_preserves_other kv.2 (hks kv (List.mem_cons_self kv rest))
          hname (hnks kv (List.mem_cons_self kv rest)) tx.length tx
          (Nat.le_refl _) hin2)
  exact main mapping hkeys hnk text hin

/-- C3 witness: the editor-native workspaceFolder placeholder survives
substitution with the full resolved map of an empty sub-profile. -/
theorem c3_unknown_placeholders_untouched_witness :
    wrapName ("workspaceFolder".toList) <:+:
      replace_placeholders ("p=${workspaceFolder};d=${STM32_DEVICE}".toList)
        (resolveMapping subEmpty ("Linux".toList) none) :=
  c3_unknown_placeholders_untouched
    (resolveMapping subEmpty ("Linux".toList) none)
    ("workspaceFolder".toList)
    ("p=${workspaceFolder};d=${STM32_DEVICE}".toList)
    (by decide) (by decide) (by decide) (by decide)

/-! ## Output-directory lemmas for C6, C7, C8 -/

/-- Lookup distributes over appended directory listings. -/
theorem lookupA_append {α : Type} (d1 d2 : List (Str × α)) (n : Str) :
    lookupA (d1 ++ d2) n =
      match lookupA d1 n with
      | some v => some v
      | none => lookupA d2 n := by
  induction d1 with
  | nil => rfl
  | cons p d1 ih =>
    cases p with
    | mk k v =>
      by_cases hk : k = n
      · simp [lookupA, hk]
      · simp [lookupA, hk, ih]

/-- Setting a fresh entry appends it. -/
theorem setEntry_absent {d : List (Str × FTree)} {n : Str} {e : FTree}
    (h : lookupA d n = none) : setEntry d n e = d ++ [(n, e)] := by
  induction d with
  | nil => rfl
  | cons p rest ih =>
    cases p with
    | mk k v =>
      unfold lookupA at h
      by_cases hk : k = n
      · rw [if_pos hk] at h
        exact absurd h (by simp)
      · rw [if_neg hk] at h
        simp [setEntry, hk, ih h]

/-- Writing at a fresh name succeeds and appends the file entry. -/
theorem writeFile_absent {d : List (Str × FTree)} {n : Str} {content : Str}
    (h : lookupA d n = none) :
    writeFile d n content = .ok (d ++ [(n, FTree.file content)]) := by
  unfold writeFile
  rw [h, setEntry_absent h]

/-- The four rendered output files, in write order. -/
def renderedFiles (mapping : List (Str × Str)) : List (Str × FTree) :=
  [(nameCCpp, FTree.file (replace_placeholders tmplCCpp mapping)),
   (nameLaunch, FTree.file (replace_placeholders tmplLaunch mapping)),
   (nameTasks, FTree.file (replace_placeholders tmplTasks mapping)),
   (nameExtensions, FTree.file (replace_placeholders tmplExtensions mapping))]

/-- The write loop succeeds on a directory free of the template names and
appends exactly the four rendered files. -/
theorem writeTemplates_ok (mapping : List (Str × Str)) (d : List (Str × FTree))
    (h1 : lookupA d nameCCpp = none) (h2 : lookupA d nameLaunch = none)
    (h3 : lookupA d nameTasks = none) (h4 : lookupA d nameExtensions = none) :
    writeTemplates mapping TEMPLATES d = (d ++ renderedFiles mapping, none) := by
  have e1 : lookupA EMBED_TEMPLATES nameCCpp = some tmplCCpp := rfl
  have e2 : lookupA EMBED_TEMPLATES nameLaunch = some tmplLaunch := rfl
  have e3 : lookupA EMBED_TEMPLATES nameTasks = some tmplTasks := rfl
  have e4 : lookupA EMBED_TEMPLATES nameExtensions = some tmplExtensions := rfl
  have h2a : lookupA
      (d ++ [(nameCCpp, FTree.file (replace_placeholders tmplCCpp mapping))])
      nameLaunch = none := by
    rw [lookupA_append, h2]
    rfl
  have h3a : lookupA
      (d ++ [(nameCCpp, FTree.file (replace_placeholders tmplCCpp mapping))] ++
        [(nameLaunch, FTree.file (replace_placeholders tmplLaunch mapping))])
      nameTasks = none := by
    rw [lookupA_append, lookupA_append, h3]
    rfl
  have h4a : lookupA
      (d ++ [(nameCCpp, FTree.file (replace_placeholders tmplCCpp mapping))] ++
        [(nameLaunch, FTree.file (replace_placeholders tmplLaunch mapping))] ++
        [(nameTasks, FTree.file (replace_placeholders tmplTasks mapping))])
      nameExtensions = none := by
    rw [lookupA_append, lookupA_append, lookupA_append, h4]
    rfl
  simp only [TEMPLATES, writeTemplates, e1, e2, e3, e4,
    writeFile_absent h1, writeFile_absent h2a, writeFile_absent h3a,
    writeFile_absent h4a]
  simp [renderedFiles, List.append_assoc]

/-- The reset loop keeps exactly the subdirectory entries, in order. -/
theorem clearFiles_eq_subdirsOf (d : List (Str × FTree)) :
    clearFiles d = subdirsOf d := by
  induction d with
  | nil => rfl
  | cons p rest ih =>
    cases p with
    | mk n e =>
      cases he : entryIsFile e <;>
        simp [clearFiles, subdirsOf, List.filter_cons, he, ih]

/-- A reset directory holds no plain-file entries. -/
theorem filesOf_clearFiles (d : List (Str × FTree)) :
    filesOf (clearFiles d) = [] := by
  induction d with
  | nil => rfl
  | cons p rest ih =>
    cases p with
    | mk n e =>
      cases e with
      | file c =>
        simpa [clearFiles, entryIsFile] using ih
      | dir sub =>
        simpa [clearFiles, entryIsFile, filesOf, List.filterMap_cons] using ih

/-- Resetting twice equals resetting once. -/
theorem clearFiles_idem (d : List (Str × FTree)) :
    clearFiles (clearFiles d) = clearFiles d := by
  induction d with
  | nil => rfl
  | cons p rest ih =>
    cases p with
    | mk n e =>
      cases he : entryIsFile e <;> simp [clearFiles, he, ih]

/-- The reset loop distributes over appended listings. -/
theorem clearFiles_append (d1 d2 : List (Str × FTree)) :
    clearFiles (d1 ++ d2) = clearFiles d1 ++ clearFiles d2 := by
  induction d1 with
  | nil => rfl
  | cons p rest ih =>
    cases p with
    | mk n e =>
      cases he : entryIsFile e <;> simp [clearFiles, he, ih]

theorem filesOf_append (d1 d2 : List (Str × FTree)) :
    filesOf (d1 ++ d2) = filesOf d1 ++ filesOf d2 := by
  simp [filesOf, List.filterMap_append]

theorem subdirsOf_append (d1 d2 : List (Str × FTree)) :
    subdirsOf (d1 ++ d2) = subdirsOf d1 ++ subdirsOf d2 := by
  simp [subdirsOf, List.filter_append]

/-- No file-name collision with a subdirectory surviving the reset:
exactly the situation in which every `open(path, 'w')` succeeds. -/
def collisionFree (fs : FS) : Bool :=
  TEMPLATES.all (fun n => (lookupA (clearedDir fs) n).isNone)

theorem run_eq_runWith (doc : PlatformDoc) (rawSys : Str) (fs : FS)
    (cfg : SubProfile) (hload : load_platform_config doc rawSys = some cfg) :
    run (some doc) rawSys fs = runWith cfg rawSys fs := by
  have hdef : run (some doc) rawSys fs =
      (match load_platform_config doc rawSys with
       | none => (fs, Except.error RunErr.nullProfile)
       | some cfg2 => runWith cfg2 rawSys fs) := rfl
  rw [hdef, hload]

/-- Characterization of a collision-free run: the Debug build directory
is gone, CMakeLists.txt is untouched, and the output directory holds the
surviving subdirectories followed by the four rendered files. -/
theorem runWith_ok (cfg : SubProfile) (rawSys : Str) (fs : FS)
    (hcol : collisionFree fs = true) :
    runWith cfg rawSys fs =
      ({ buildDebug := false, cmakeFile := fs.cmakeFile,
         vscode := some (clearedDir fs ++
           renderedFiles (resolveMapping cfg rawSys fs.cmakeFile)) },
       .ok ()) := by
  simp only [collisionFree, TEMPLATES, List.all_cons, List.all_nil,
    Bool.and_eq_true, Option.isNone_iff_eq_none] at hcol
  obtain ⟨hc1, hc2, hc3, hc4, -⟩ := hcol
  simp only [runWith]
  have hfs1 : clearedDir
      { buildDebug := false, cmakeFile := fs.cmakeFile, vscode := fs.vscode } =
      clearedDir fs := rfl
  rw [hfs1]
  rw [writeTemplates_ok (resolveMapping cfg rawSys fs.cmakeFile)
    (clearedDir fs) hc1 hc2 hc3 hc4]

theorem subdirsOf_subdirsOf (d : List (Str × FTree)) :
    subdirsOf (subdirsOf d) = subdirsOf d := by
  simp [subdirsOf, List.filter_filter]

/-- The reset loop leaves an already reset directory unchanged. -/
theorem clearFiles_clearedDir (fs : FS) :
    clearFiles (clearedDir fs) = clearedDir fs := by
  cases hvv : fs.vscode <;> simp [clearedDir, hvv, clearFiles_idem, clearFiles]

/-! ## C6 — destructive reset of the output directory -/

/-- C6: the reset loop removes exactly the plain files of the output
directory and keeps every subdirectory with its contents (first
conjunct, for every listing v); after one collision-free run the output
directory exists, its subdirectories are those that were present before,
and its plain files are exactly the four generated outputs, so a
pre-existing unrelated plain file is gone. -/
theorem c6_destructive_reset (v : List (Str × FTree)) (doc : PlatformDoc)
    (rawSys : Str) (fs : FS) (cfg : SubProfile) (d : List (Str × FTree))
    (hload : load_platform_config doc rawSys = some cfg)
    (hv : fs.vscode = some d)
    (hcol : collisionFree fs = true) :
    (clearFiles v = subdirsOf v ∧ filesOf (clearFiles v) = []) ∧
    ((run (some doc) rawSys fs).1.vscode).isSome = true ∧
    subdirsOf (((run (some doc) rawSys fs).1.vscode).getD []) = subdirsOf d ∧
    (filesOf (((run (some doc) rawSys fs).1.vscode).getD [])).map Prod.fst =
      TEMPLATES := by
  rw [run_eq_runWith doc rawSys fs cfg hload, runWith_ok cfg rawSys fs hcol]
  have hcd : clearedDir fs = clearFiles d := by
    simp [clearedDir, hv]
  have hsr : subdirsOf
      (renderedFiles (resolveMapping cfg rawSys fs.cmakeFile)) = [] := rfl
  refine ⟨⟨clearFiles_eq_subdirsOf v, filesOf_clearFiles v⟩, rfl, ?_, ?_⟩
  · show subdirsOf (clearedDir fs ++
        renderedFiles (resolveMapping cfg rawSys fs.cmakeFile)) = subdirsOf d
    rw [subdirsOf_append, hsr, List.append_nil, hcd,
      clearFiles_eq_subdirsOf, subdirsOf_subdirsOf]
  · show (filesOf (clearedDir fs ++
        renderedFiles (resolveMapping cfg rawSys fs.cmakeFile))).map Prod.fst =
      TEMPLATES
    rw [filesOf_append, hcd, filesOf_clearFiles, List.nil_append]
    rfl

/-- A concrete pre-populated output directory: one unrelated plain file
plus one subdirectory with contents. -/
def dScenario : List (Str × FTree) :=
  [("notes.txt".toList, FTree.file ("junk".toList)),
   ("sub".toList, FTree.dir [("inner.txt".toList, FTree.file ("x".toList))])]

def fsScenario : FS :=
  { buildDebug := true, cmakeFile := none, vscode := some dScenario }

def docLinuxOnly : PlatformDoc := [(keyLinux, subEmpty)]

/-- C6 witness: on the concrete scenario the unrelated file is gone, the
subdirectory survives untouched, and exactly the four outputs exist. -/
theorem c6_destructive_reset_witness :
    ((run (some docLinuxOnly) ("Linux".toList) fsScenario).1.vscode).isSome
      = true ∧
    subdirsOf (((run (some docLinuxOnly) ("Linux".toList)
        fsScenario).1.vscode).getD []) = subdirsOf dScenario ∧
    (filesOf (((run (some docLinuxOnly) ("Linux".toList)
        fsScenario).1.vscode).getD [])).map Prod.fst = TEMPLATES :=
  have h := c6_destructive_reset [] docLinuxOnly ("Linux".toList) fsScenario
    subEmpty dScenario rfl rfl (by decide)
  ⟨h.2.1, h.2.2.1, h.2.2.2⟩

/-! ## C7 — exit status and abort-before-output -/

/-- C7 counterexample: a well-formed, parseable document (a single `mac`
key) still ends in a crash — a nonzero exit — on a host that resolves to
`linux`, because the selected sub-profile is null. -/
theorem c7_nonzero_on_parseable_doc :
    (run (some [("mac".toList, subEmpty)]) ("Darwin".toList) fsEmpty).2 =
      .error .nullProfile := rfl

/-- C7 (amended): a missing or unparseable document aborts with the
filesystem untouched; a parseable document whose selected sub-profile is
null also aborts, again before any output is touched; any other
collision-free run completes with exit status zero. -/
theorem c7_exit_status (rawSys : Str) (fs : FS) (doc : PlatformDoc)
    (hcol : collisionFree fs = true) :
    run none rawSys fs = (fs, .error .parseError) ∧
    (load_platform_config doc rawSys = none →
      run (some doc) rawSys fs = (fs, .error .nullProfile)) ∧
    (∀ cfg, load_platform_config doc rawSys = some cfg →
      (run (some doc) rawSys fs).2 = .ok ()) := by
  refine ⟨rfl, fun h => ?_, fun cfg h => ?_⟩
  · have hdef : run (some doc) rawSys fs =
        (match load_platform_config doc rawSys with
         | none => (fs, Except.error RunErr.nullProfile)
         | some cfg2 => runWith cfg2 rawSys fs) := rfl
    rw [hdef, h]
  · rw [run_eq_runWith doc rawSys fs cfg h, runWith_ok cfg rawSys fs hcol]

/-- C7 witness: a complete run exits zero. -/
theorem c7_exit_status_witness :
    (run (some docLinuxOnly) ("Linux".toList) fsEmpty).2 = .ok () :=
  (c7_exit_status ("Linux".toList) fsEmpty docLinuxOnly (by decide)).2.2
    subEmpty rfl

/-! ## C8 — idempotent regeneration -/

/-- C8: with the profile document, host string and CMakeLists.txt
unchanged, a second run over the first run's filesystem also completes
and writes byte-identical content for every output file. -/
theorem c8_idempotent (doc : PlatformDoc) (rawSys : Str) (fs : FS)
    (cfg : SubProfile)
    (hload : load_platform_config doc rawSys = some cfg)
    (hcol : collisionFree fs = true) :
    (run (some doc) rawSys fs).2 = .ok () ∧
    (run (some doc) rawSys ((run (some doc) rawSys fs).1)).2 = .ok () ∧
    filesOf ((((run (some doc) rawSys
        ((run (some doc) rawSys fs).1)).1).vscode).getD []) =
      filesOf ((((run (some doc) rawSys fs).1).vscode).getD []) := by
  have hrw1 := run_eq_runWith doc rawSys fs cfg hload
  have hok1 := runWith_ok cfg rawSys fs hcol
  have hfs1 : (run (some doc) rawSys fs).1 =
      { buildDebug := false, cmakeFile := fs.cmakeFile,
        vscode := some (clearedDir fs ++
          renderedFiles (resolveMapping cfg rawSys fs.cmakeFile)) } := by
    rw [hrw1, hok1]
  have hcd1 : clearedDir ((run (some doc) rawSys fs).1) = clearedDir fs := by
    rw [hfs1]
    show clearFiles (clearedDir fs ++
      renderedFiles (resolveMapping cfg rawSys fs.cmakeFile)) = clearedDir fs
    rw [clearFiles_append, clearFiles_clearedDir]
    have hcr : clearFiles
        (renderedFiles (resolveMapping cfg rawSys fs.cmakeFile)) = [] := rfl
    rw [hcr, List.append_nil]
  have hcol1 : collisionFree ((run (some doc) rawSys fs).1) = true := by
    simp only [collisionFree] at hcol ⊢
    rw [hcd1]
    exact hcol
  have hok2 := runWith_ok cfg rawSys ((run (some doc) rawSys fs).1) hcol1
  have hrw2 := run_eq_runWith doc rawSys ((run (some doc) rawSys fs).1)
    cfg hload
  refine ⟨by rw [hrw1, hok1], by rw [hrw2, hok2], ?_⟩
  rw [hrw2, hok2, hrw1, hok1]
  show filesOf (clearFiles (clearedDir fs ++
      renderedFiles (resolveMapping cfg rawSys fs.cmakeFile)) ++
      renderedFiles (resolveMapping cfg rawSys fs.cmakeFile)) =
    filesOf (clearedDir fs ++
      renderedFiles (resolveMapping cfg rawSys fs.cmakeFile))
  rw [clearFiles_append, clearFiles_clearedDir]
  have hcr : clearFiles
      (renderedFiles (resolveMapping cfg rawSys fs.cmakeFile)) = [] := rfl
  rw [hcr, List.append_nil]

/-- C8 witness: the concrete scenario regenerates identical files. -/
theorem c8_idempotent_witness :
    filesOf ((((run (some docLinuxOnly) ("Linux".toList)
        ((run (some docLinuxOnly) ("Linux".toList) fsScenario).1)).1).vscode).getD []) =
      filesOf ((((run (some docLinuxOnly) ("Linux".toList)
        fsScenario).1).vscode).getD []) :=
  (c8_idempotent docLinuxOnly ("Linux".toList) fsScenario subEmpty rfl
    (by decide)).2.2
